import Mathlib

/-!
Shallow embedding of the qbserver resilient credential store and OAuth
credential service (Go sources: internal/auth/models.go,
internal/auth/middleware.go (RedisTokenStore), internal/auth/token_store_fallback.go,
auth/service.go, infrastructure/redis/healthcheck.go).

Conventions of the embedding:
* time is modelled in whole seconds as `Int`; each Go operation that reads
  `time.Now()` receives a single `now : Int` parameter;
* the outcomes of external effects (the health-check call, the reachability of
  the Redis tier, the upstream HTTP token/revoke calls) are passed in as
  explicit oracle arguments, so every definition is a pure function of the
  store state and those oracles;
* Go maps are represented as association lists from `String` keys.
-/

namespace QBServer

/-- Record `OAuthToken` from internal/auth/models.go: token data from QuickBooks.
`expiresAt` and `expiresIn` are in seconds (`expiresAt` absolute). -/
structure OAuthToken where
  accessToken : String
  refreshToken : String
  tokenType : String
  expiresIn : Int
  expiresAt : Int
  realmID : String
deriving DecidableEq, Repr

/-- Error taxonomy of the store tier (spec section 7): `notFound` corresponds to
the "no token found for user" errors, `unavailable` to any other failure of the
durable tier. -/
inductive StoreError where
  | notFound
  | unavailable
deriving DecidableEq, Repr

/-- Upstream authorization-server failure (non-2xx token/revoke response or
transport error), carried opaquely. -/
structure UpstreamError where
  message : String
deriving DecidableEq, Repr

/-- Errors surfaced by the credential service: a propagated store error or a
propagated upstream error. -/
inductive ServiceError where
  | store : StoreError → ServiceError
  | upstream : UpstreamError → ServiceError
deriving DecidableEq, Repr

/-- Association-list lookup (Go map read). -/
def alookup {α : Type} : List (String × α) → String → Option α
  | [], _ => none
  | (k, v) :: rest, key => if k = key then some v else alookup rest key

/-- Association-list update (Go map write): overwrites the first binding of the
key, appends if absent. -/
def aupdate {α : Type} : List (String × α) → String → α → List (String × α)
  | [], key, v => [(key, v)]
  | (k, w) :: rest, key, v =>
      if k = key then (key, v) :: rest else (k, w) :: aupdate rest key v

/-- Association-list removal (Go map delete): removes every binding of the key. -/
def aerase {α : Type} : List (String × α) → String → List (String × α)
  | [], _ => []
  | (k, v) :: rest, key =>
      if k = key then aerase rest key else (k, v) :: aerase rest key

/-- State of the durable tier: the key/value data held by Redis, keyed by user
id (the constant key derivation of RedisTokenStore.key is dropped since it is
injective in the user id). -/
structure RedisStore where
  data : List (String × OAuthToken)
deriving DecidableEq, Repr

/-- Operation `RedisTokenStore.GetToken` (internal/auth/middleware.go): when the tier is
reachable, a missing key (redis.Nil) yields the "no token found" error and a
present key yields the stored token (JSON round-trip assumed faithful); when
unreachable, any other client error yields `unavailable`. -/
def RedisStore.GetToken (r : RedisStore) (avail : Bool) (userID : String) :
    Except StoreError OAuthToken :=
  if avail then
    match alookup r.data userID with
    | some tok => Except.ok tok
    | none => Except.error StoreError.notFound
  else Except.error StoreError.unavailable

/-- Operation `RedisTokenStore.SaveToken` (internal/auth/middleware.go): SET of the
serialized token (the TTL of `time until expiry + 24h` does not affect the
stored value and is not modelled); fails when the tier is unreachable. -/
def RedisStore.SaveToken (r : RedisStore) (avail : Bool) (userID : String)
    (token : OAuthToken) : RedisStore × Option StoreError :=
  if avail then ({ data := aupdate r.data userID token }, none)
  else (r, some StoreError.unavailable)

/-- Operation `RedisTokenStore.DeleteToken` (internal/auth/middleware.go): DEL of the
user's key; fails when the tier is unreachable. -/
def RedisStore.DeleteToken (r : RedisStore) (avail : Bool) (userID : String) :
    RedisStore × Option StoreError :=
  if avail then ({ data := aerase r.data userID }, none)
  else (r, some StoreError.unavailable)

/-- State of `FallbackTokenStore` (internal/auth/token_store_fallback.go): the durable
Redis tier plus the in-process cache. The injected `healthCheck` closure is
modelled by passing its per-call result as a `Bool` oracle to each operation. -/
structure FallbackTokenStore where
  redisStore : RedisStore
  localCache : List (String × OAuthToken)
deriving DecidableEq, Repr

/-- Operation `FallbackTokenStore.GetToken`: if the health check reports trusted, try the
durable read first; on its success overwrite the cache entry and return the
durable value; on its failure, or when untrusted, fall back to the cache; with
no cache entry fail with the "token not found for user" error. -/
def FallbackTokenStore.GetToken (s : FallbackTokenStore) (healthy avail : Bool)
    (userID : String) : FallbackTokenStore × Except StoreError OAuthToken :=
  if healthy then
    match s.redisStore.GetToken avail userID with
    | Except.ok token =>
        ({ s with localCache := aupdate s.localCache userID token },
         Except.ok token)
    | Except.error _ =>
        match alookup s.localCache userID with
        | some token => (s, Except.ok token)
        | none => (s, Except.error StoreError.notFound)
  else
    match alookup s.localCache userID with
    | some token => (s, Except.ok token)
    | none => (s, Except.error StoreError.notFound)

/-- Operation `FallbackTokenStore.SaveToken`: always update the local cache first; if the
health check reports trusted, also attempt the durable write, logging but
ignoring its error; the operation itself always returns success (nil). -/
def FallbackTokenStore.SaveToken (s : FallbackTokenStore) (healthy avail : Bool)
    (userID : String) (token : OAuthToken) :
    FallbackTokenStore × Option StoreError :=
  let s1 : FallbackTokenStore :=
    { s with localCache := aupdate s.localCache userID token }
  if healthy then
    let rv := s1.redisStore.SaveToken avail userID token
    ({ s1 with redisStore := rv.1 }, none)
  else (s1, none)

/-- Operation `FallbackTokenStore.DeleteToken`: remove from the cache unconditionally; if
trusted, also attempt the durable delete, ignoring its error; always returns
success (nil). -/
def FallbackTokenStore.DeleteToken (s : FallbackTokenStore) (healthy avail : Bool)
    (userID : String) : FallbackTokenStore × Option StoreError :=
  let s1 : FallbackTokenStore :=
    { s with localCache := aerase s.localCache userID }
  if healthy then
    let rv := s1.redisStore.DeleteToken avail userID
    ({ s1 with redisStore := rv.1 }, none)
  else (s1, none)

/-- Pushing a snapshot of cache entries to the durable tier, one `SaveToken`
per entry, each error logged and ignored (loop body of
`StartReplicationRoutine`). `avail` gives the reachability of the durable tier
at each individual entry's write. -/
def replicateAll (r : RedisStore) (avail : String → Bool) :
    List (String × OAuthToken) → RedisStore
  | [] => r
  | (userID, token) :: rest =>
      replicateAll (r.SaveToken (avail userID) userID token).1 avail rest

/-- One tick of `FallbackTokenStore.StartReplicationRoutine`
(internal/auth/token_store_fallback.go): if the health check reports untrusted,
do nothing; otherwise snapshot the whole cache under the read lock and attempt
a durable save of every snapshotted entry. Returns the new store state and the
list of entries for which a durable save was attempted. -/
def FallbackTokenStore.replicationTick (s : FallbackTokenStore) (healthy : Bool)
    (avail : String → Bool) :
    FallbackTokenStore × List (String × OAuthToken) :=
  if healthy then
    ({ s with redisStore := replicateAll s.redisStore avail s.localCache },
     s.localCache)
  else (s, [])

/-! ## Credential service (auth/service.go)

Each service operation is parameterized by the oracles of the store calls it
makes (`h*` = the health-check result seen by that call, `a*` = the durable
tier's reachability at that call) and by the parsed outcome of the upstream
HTTP exchange it performs. -/

/-- Operation `Service.RefreshToken` (auth/service.go): load the current record, perform
the refresh-token grant (`refreshResp` is the parsed outcome of
`executeTokenRequest`), set `expiresAt := now + expiresIn`, preserve the realm
id from the old record, reuse the old refresh token when the upstream response
omits one, and save the updated record. -/
def Service.RefreshToken (s : FallbackTokenStore) (hG aG hS aS : Bool)
    (now : Int) (userID : String) (refreshResp : Except UpstreamError OAuthToken) :
    FallbackTokenStore × Except ServiceError OAuthToken :=
  let g := s.GetToken hG aG userID
  match g.2 with
  | Except.error e => (g.1, Except.error (ServiceError.store e))
  | Except.ok token =>
    match refreshResp with
    | Except.error e => (g.1, Except.error (ServiceError.upstream e))
    | Except.ok resp =>
      let newToken : OAuthToken :=
        { resp with expiresAt := now + resp.expiresIn, realmID := token.realmID }
      let newToken : OAuthToken :=
        if newToken.refreshToken = "" then
          { newToken with refreshToken := token.refreshToken }
        else newToken
      let sv := g.1.SaveToken hS aS userID newToken
      match sv.2 with
      | some e => (sv.1, Except.error (ServiceError.store e))
      | none => (sv.1, Except.ok newToken)

/-- Operation `Service.GetValidToken` (auth/service.go): load the current record; if its
`expiresAt` is less than five minutes (300 s) away from `now`, synchronously
refresh before returning; otherwise return the loaded record. -/
def Service.GetValidToken (s : FallbackTokenStore) (hG aG hG2 aG2 hS aS : Bool)
    (now : Int) (userID : String) (refreshResp : Except UpstreamError OAuthToken) :
    FallbackTokenStore × Except ServiceError OAuthToken :=
  let g := s.GetToken hG aG userID
  match g.2 with
  | Except.error e => (g.1, Except.error (ServiceError.store e))
  | Except.ok token =>
    if token.expiresAt - now < 5 * 60 then
      Service.RefreshToken g.1 hG2 aG2 hS aS now userID refreshResp
    else (g.1, Except.ok token)

/-- Operation `Service.Disconnect` (auth/service.go): load the record, revoke the access
token, then the refresh token (`revokeAccess`/`revokeRefresh` are the outcomes
of the two `revokeToken` calls, `none` = success); a failure of either
revocation is returned immediately, before the store delete; only after both
succeed is the record deleted from the store. -/
def Service.Disconnect (s : FallbackTokenStore) (hG aG : Bool)
    (revokeAccess revokeRefresh : Option UpstreamError) (hD aD : Bool)
    (userID : String) : FallbackTokenStore × Option ServiceError :=
  let g := s.GetToken hG aG userID
  match g.2 with
  | Except.error e => (g.1, some (ServiceError.store e))
  | Except.ok _ =>
    match revokeAccess with
    | some e => (g.1, some (ServiceError.upstream e))
    | none =>
      match revokeRefresh with
      | some e => (g.1, some (ServiceError.upstream e))
      | none =>
        let d := g.1.DeleteToken hD aD userID
        (d.1, d.2.map ServiceError.store)

/-- Operation `Service.HandleCallback` (auth/service.go): exchange the authorization code
(`exchangeResp` is the parsed outcome of `executeTokenRequest`, including the
token response's realm id, normally empty), set `expiresAt := now + expiresIn`,
and save the record. -/
def Service.HandleCallback (s : FallbackTokenStore) (hS aS : Bool) (now : Int)
    (userID : String) (exchangeResp : Except UpstreamError OAuthToken) :
    FallbackTokenStore × Except ServiceError OAuthToken :=
  match exchangeResp with
  | Except.error e => (s, Except.error (ServiceError.upstream e))
  | Except.ok token =>
    let token : OAuthToken := { token with expiresAt := now + token.expiresIn }
    let sv := s.SaveToken hS aS userID token
    match sv.2 with
    | some e => (sv.1, Except.error (ServiceError.store e))
    | none => (sv.1, Except.ok token)

/-- Realm-binding tail of `Handler.CallbackHandler` (auth/handlers.go, after a
successful `HandleCallback`): if the callback query supplied a non-empty
`realmId`, set it on the token and save the updated record; otherwise leave
the persisted record as `HandleCallback` wrote it. -/
def Handler.callbackRealmBinding (s : FallbackTokenStore) (hS aS : Bool)
    (realmID userID : String) (token : OAuthToken) :
    FallbackTokenStore × OAuthToken :=
  if realmID ≠ "" then
    let token : OAuthToken := { token with realmID := realmID }
    let sv := s.SaveToken hS aS userID token
    (sv.1, token)
  else (s, token)

/-! ## Health monitor (infrastructure/redis/healthcheck.go)

The circuit breaker is the external gobreaker dependency, configured in
`NewHealthChecker` with `Timeout = 30 s`, `ReadyToTrip` at three consecutive
failures, and `MaxRequests = 0` (one trial request in half-open). Modelled from
the spec: the three-state breaker protocol of spec section 4.1 (closed / open /
half-open), since the gobreaker source is not part of this repository. A probe
`attempt` at time `now` promotes an expired open breaker to half-open and runs
the trial probe in the same call, matching the per-`Check` observable
behaviour of `CircuitBreaker.Execute`. -/

inductive BreakerState where
  | closed
  | opened
  | halfOpen
deriving DecidableEq, Repr

structure CircuitBreaker where
  state : BreakerState
  consecutiveFailures : Nat
  openUntil : Int
deriving DecidableEq, Repr

/-- Fresh breaker: closed, no failures recorded. -/
def CircuitBreaker.initial : CircuitBreaker :=
  { state := BreakerState.closed, consecutiveFailures := 0, openUntil := 0 }

/-- Modelled from the spec: one `Execute` of the breaker around a probe at time
`now` whose underlying PING would report `pingOk`. Returns the new breaker
state, whether the execution reported success, and whether the real probe was
actually issued (false when suppressed by the open state). -/
def CircuitBreaker.attempt (b : CircuitBreaker) (now : Int) (pingOk : Bool) :
    CircuitBreaker × Bool × Bool :=
  match b.state with
  | BreakerState.opened =>
    if b.openUntil ≤ now then
      -- cool-down elapsed: half-open trial probe
      if pingOk then
        ({ state := BreakerState.closed, consecutiveFailures := 0,
           openUntil := b.openUntil }, true, true)
      else
        ({ state := BreakerState.opened, consecutiveFailures := 0,
           openUntil := now + 30 }, false, true)
    else (b, false, false)
  | BreakerState.halfOpen =>
    if pingOk then
      ({ state := BreakerState.closed, consecutiveFailures := 0,
         openUntil := b.openUntil }, true, true)
    else
      ({ state := BreakerState.opened, consecutiveFailures := 0,
         openUntil := now + 30 }, false, true)
  | BreakerState.closed =>
    if pingOk then ({ b with consecutiveFailures := 0 }, true, true)
    else if 3 ≤ b.consecutiveFailures + 1 then
      ({ state := BreakerState.opened, consecutiveFailures := 0,
         openUntil := now + 30 }, false, true)
    else ({ b with consecutiveFailures := b.consecutiveFailures + 1 }, false, true)

/-- State of `HealthChecker` (infrastructure/redis/healthcheck.go): the cached trust
flag plus the circuit breaker. -/
structure HealthChecker where
  status : Bool
  breaker : CircuitBreaker
deriving DecidableEq, Repr

/-- Constructor `NewHealthChecker`: the trust flag starts out false and the breaker closed. -/
def NewHealthChecker : HealthChecker :=
  { status := false, breaker := CircuitBreaker.initial }

/-- Operation `HealthChecker.IsHealthy`: a lock-protected read of the cached boolean, no
I/O. -/
def HealthChecker.IsHealthy (h : HealthChecker) : Bool :=
  h.status

/-- Result of one `HealthChecker.Check`: the new checker state, the health
value it computed (and stored), and whether a real probe was issued. -/
structure CheckResult where
  checker : HealthChecker
  isHealthy : Bool
  probed : Bool
deriving DecidableEq, Repr

/-- Operation `HealthChecker.Check`: run the PING probe through the breaker and store the
resulting boolean in the trust flag. -/
def HealthChecker.Check (h : HealthChecker) (now : Int) (pingOk : Bool) :
    CheckResult :=
  let r := h.breaker.attempt now pingOk
  { checker := { status := r.2.1, breaker := r.1 },
    isHealthy := r.2.1, probed := r.2.2 }

/-- Folding a sequence of periodic checks (`startPeriodicChecks`), each given
as a pair of the probe time and the PING outcome the probe would report. -/
def HealthChecker.runChecks (h : HealthChecker) :
    List (Int × Bool) → HealthChecker
  | [] => h
  | (t, ok) :: rest => HealthChecker.runChecks (h.Check t ok).checker rest

/-- The health values computed by a sequence of checks, in order. -/
def HealthChecker.checkOutcomes (h : HealthChecker) :
    List (Int × Bool) → List Bool
  | [] => []
  | (t, ok) :: rest =>
      (h.Check t ok).isHealthy ::
        HealthChecker.checkOutcomes (h.Check t ok).checker rest

/-- The record that `Service.RefreshToken` builds from the old record and a
successful upstream refresh response: new expiry, realm id preserved from the
old record, refresh token reused from the old record when the response omits
one. -/
def refreshedRecord (old resp : OAuthToken) (now : Int) : OAuthToken :=
  let t : OAuthToken :=
    { resp with expiresAt := now + resp.expiresIn, realmID := old.realmID }
  if t.refreshToken = "" then { t with refreshToken := old.refreshToken } else t

/-! ## Concrete sample data for witnesses and counterexamples -/

/-- A bound, far-from-expiry credential record. -/
def tokA : OAuthToken :=
  { accessToken := "a1", refreshToken := "r1", tokenType := "bearer",
    expiresIn := 3600, expiresAt := 4000, realmID := "realm1" }

/-- The durable tier's (diverging) record for the same user. -/
def redisTok : OAuthToken :=
  { tokA with accessToken := "a9" }

/-- A second user's record. -/
def tokB : OAuthToken :=
  { tokA with accessToken := "b2" }

/-- Record `tokA` about to expire (100 s from `now = 0`, inside the 5-minute margin). -/
def nearTok : OAuthToken :=
  { tokA with expiresAt := 100 }

/-- An upstream refresh response that rotates the refresh token. -/
def upTok : OAuthToken :=
  { accessToken := "a2", refreshToken := "r2", tokenType := "bearer",
    expiresIn := 3600, expiresAt := 0, realmID := "" }

/-- An upstream refresh response that omits the refresh token. -/
def upTokNoRotate : OAuthToken :=
  { upTok with refreshToken := "" }

/-- An upstream refresh response granting only 60 s of validity. -/
def upTokShort : OAuthToken :=
  { upTok with expiresIn := 60 }

/-- The record `RefreshToken` builds from `nearTok` and `upTokShort` at `now = 0`. -/
def shortRefreshed : OAuthToken :=
  { accessToken := "a2", refreshToken := "r2", tokenType := "bearer",
    expiresIn := 60, expiresAt := 60, realmID := "realm1" }

/-- An upstream token response of the authorization-code exchange: no realm id. -/
def exchTok : OAuthToken :=
  { accessToken := "a3", refreshToken := "r3", tokenType := "bearer",
    expiresIn := 3600, expiresAt := 0, realmID := "" }

/-- Record `exchTok` as persisted by `HandleCallback` at `now = 0`. -/
def exchSaved : OAuthToken :=
  { exchTok with expiresAt := 3600 }

/-- A revocation failure reported by the upstream. -/
def errA : UpstreamError :=
  { message := "revoke failed" }

/-- Store with nothing persisted anywhere. -/
def emptyStore : FallbackTokenStore :=
  { redisStore := { data := [] }, localCache := [] }

/-- Store holding `tokA` for `"u1"` only in the local cache. -/
def cacheStore : FallbackTokenStore :=
  { redisStore := { data := [] }, localCache := [("u1", tokA)] }

/-- Store holding the near-expiry `nearTok` for `"u1"` only in the cache. -/
def nearStore : FallbackTokenStore :=
  { redisStore := { data := [] }, localCache := [("u1", nearTok)] }

/-- Store where cache and durable tier disagree for `"u1"`. -/
def bothStore : FallbackTokenStore :=
  { redisStore := { data := [("u1", redisTok)] }, localCache := [("u1", tokA)] }

/-- Store with two cached users and an empty durable tier. -/
def twoStore : FallbackTokenStore :=
  { redisStore := { data := [] }, localCache := [("u1", tokA), ("u2", tokB)] }

/-- Durable-tier reachability that fails for `"u1"` and succeeds for `"u2"`. -/
def availOnlyU2 : String → Bool :=
  fun userID => userID = "u2"

/-! ## Helper lemmas -/

theorem alookup_aupdate_self {α : Type} (l : List (String × α)) (k : String)
    (v : α) : alookup (aupdate l k v) k = some v := by
  induction l with
  | nil => simp [aupdate, alookup]
  | cons hd tl ih =>
    obtain ⟨k', v'⟩ := hd
    by_cases h : k' = k
    · simp [aupdate, h, alookup]
    · simp [aupdate, h, alookup, ih]

theorem alookup_aupdate_ne {α : Type} (l : List (String × α)) (k k' : String)
    (v : α) (h : k' ≠ k) : alookup (aupdate l k v) k' = alookup l k' := by
  induction l with
  | nil => simp [aupdate, alookup, Ne.symm h]
  | cons hd tl ih =>
    obtain ⟨k₀, v₀⟩ := hd
    by_cases h₀ : k₀ = k
    · subst h₀
      simp [aupdate, alookup, Ne.symm h]
    · simp only [aupdate, if_neg h₀, alookup]
      by_cases h₁ : k₀ = k'
      · simp [h₁]
      · simp [h₁, ih]

theorem alookup_aerase_self {α : Type} (l : List (String × α)) (k : String) :
    alookup (aerase l k) k = none := by
  induction l with
  | nil => simp [aerase, alookup]
  | cons hd tl ih =>
    obtain ⟨k', v'⟩ := hd
    by_cases h : k' = k
    · simp [aerase, h, ih]
    · simp [aerase, h, alookup, ih]

/-- Lemma: `FallbackTokenStore.SaveToken` always reports success. -/
theorem saveToken_snd (s : FallbackTokenStore) (healthy avail : Bool)
    (userID : String) (token : OAuthToken) :
    (s.SaveToken healthy avail userID token).2 = none := by
  cases healthy <;> simp [FallbackTokenStore.SaveToken]

/-- Lemma: `FallbackTokenStore.SaveToken` writes the record into the local cache. -/
theorem saveToken_cache (s : FallbackTokenStore) (healthy avail : Bool)
    (userID : String) (token : OAuthToken) :
    alookup (s.SaveToken healthy avail userID token).1.localCache userID
      = some token := by
  cases healthy <;>
    simp [FallbackTokenStore.SaveToken, alookup_aupdate_self]

/-- A successful `FallbackTokenStore.GetToken` leaves the returned record in
the local cache of the resulting state. -/
theorem getToken_ok_cache (s : FallbackTokenStore) (healthy avail : Bool)
    (userID : String) (token : OAuthToken)
    (h : (s.GetToken healthy avail userID).2 = Except.ok token) :
    alookup (s.GetToken healthy avail userID).1.localCache userID
      = some token := by
  cases healthy with
  | false =>
    simp only [FallbackTokenStore.GetToken] at h ⊢
    cases hc : alookup s.localCache userID with
    | none => simp [hc] at h
    | some t => simp [hc] at h ⊢; exact h
  | true =>
    simp only [FallbackTokenStore.GetToken] at h ⊢
    cases hr : s.redisStore.GetToken avail userID with
    | ok t =>
      simp [hr] at h ⊢
      rw [h] at *
      exact alookup_aupdate_self ..
    | error e =>
      simp only [hr] at h ⊢
      cases hc : alookup s.localCache userID with
      | none => simp [hc] at h
      | some t => simp [hc] at h ⊢; exact h

/-- With the health check reporting untrusted, `GetToken` is a pure cache read. -/
theorem getToken_untrusted (s : FallbackTokenStore) (avail : Bool)
    (userID : String) (token : OAuthToken)
    (h : alookup s.localCache userID = some token) :
    (s.GetToken false avail userID).2 = Except.ok token := by
  simp [FallbackTokenStore.GetToken, h]

/-- Lemma: `FallbackTokenStore.DeleteToken` always reports success. -/
theorem deleteToken_snd (s : FallbackTokenStore) (healthy avail : Bool)
    (userID : String) :
    (s.DeleteToken healthy avail userID).2 = none := by
  cases healthy <;> simp [FallbackTokenStore.DeleteToken]

/-- Lemma: `FallbackTokenStore.DeleteToken` removes the user's cache entry. -/
theorem deleteToken_cache (s : FallbackTokenStore) (healthy avail : Bool)
    (userID : String) :
    alookup (s.DeleteToken healthy avail userID).1.localCache userID = none := by
  cases healthy <;>
    simp [FallbackTokenStore.DeleteToken, alookup_aerase_self]

/-- Replicating entries none of which carry the given key leaves that key's
durable value unchanged. -/
theorem replicateAll_alookup_not_mem {r : RedisStore} (avail : String → Bool)
    {l : List (String × OAuthToken)} {userID : String}
    (h : userID ∉ l.map Prod.fst) :
    alookup (replicateAll r avail l).data userID = alookup r.data userID := by
  induction l generalizing r with
  | nil => rfl
  | cons hd tl ih =>
    obtain ⟨k, t⟩ := hd
    simp only [List.map_cons, List.mem_cons, not_or] at h
    obtain ⟨hne, htl⟩ := h
    simp only [replicateAll]
    rw [ih htl]
    cases hav : avail k <;>
      simp [RedisStore.SaveToken, alookup_aupdate_ne _ _ _ _ hne]

/-- Replicating a snapshot with distinct keys durably saves every entry whose
individual write succeeds, regardless of the other entries' outcomes. -/
theorem replicateAll_alookup_mem {r : RedisStore} (avail : String → Bool)
    {l : List (String × OAuthToken)} {userID : String} {token : OAuthToken}
    (hnd : (l.map Prod.fst).Nodup) (hmem : (userID, token) ∈ l)
    (hav : avail userID = true) :
    alookup (replicateAll r avail l).data userID = some token := by
  induction l generalizing r with
  | nil => simp at hmem
  | cons hd tl ih =>
    obtain ⟨k, t⟩ := hd
    simp only [List.map_cons, List.nodup_cons] at hnd
    obtain ⟨hk, hndtl⟩ := hnd
    rcases List.mem_cons.mp hmem with heq | hmemtl
    · rw [Prod.ext_iff] at heq
      obtain ⟨h1, h2⟩ := heq
      subst h1
      subst h2
      simp only [replicateAll]
      rw [replicateAll_alookup_not_mem avail hk]
      simp [RedisStore.SaveToken, hav, alookup_aupdate_self]
    · simp only [replicateAll]
      exact ih hndtl hmemtl

/-- Characterization of `Service.RefreshToken` on the success path. -/
theorem refreshToken_ok_spec (s : FallbackTokenStore) (hG aG hS aS : Bool)
    (now : Int) (userID : String) (old resp : OAuthToken)
    (hget : (s.GetToken hG aG userID).2 = Except.ok old) :
    Service.RefreshToken s hG aG hS aS now userID (Except.ok resp) =
      (((s.GetToken hG aG userID).1.SaveToken hS aS userID
          (refreshedRecord old resp now)).1,
       Except.ok (refreshedRecord old resp now)) := by
  simp only [Service.RefreshToken, hget, saveToken_snd, refreshedRecord]

/-- Whenever `Service.RefreshToken` returns a record, the upstream refresh
succeeded and the record's expiry is `now + expiresIn` of the response. -/
theorem refreshToken_ok_expiry (s : FallbackTokenStore) (hG aG hS aS : Bool)
    (now : Int) (userID : String) (refreshResp : Except UpstreamError OAuthToken)
    (token : OAuthToken)
    (h : (Service.RefreshToken s hG aG hS aS now userID refreshResp).2 =
      Except.ok token) :
    ∃ u, refreshResp = Except.ok u ∧ token.expiresAt = now + u.expiresIn := by
  cases hg : (s.GetToken hG aG userID).2 with
  | error e => simp [Service.RefreshToken, hg] at h
  | ok old =>
    cases refreshResp with
    | error e => simp [Service.RefreshToken, hg] at h
    | ok u =>
      refine ⟨u, rfl, ?_⟩
      rw [refreshToken_ok_spec s hG aG hS aS now userID old u hg] at h
      simp only [Except.ok.injEq] at h
      rw [← h]
      by_cases hrt : u.refreshToken = "" <;> simp [refreshedRecord, hrt]

/-- If no check in a sequence computes a healthy result, the trust flag stays
false throughout. -/
theorem runChecks_no_success {h : HealthChecker} {probes : List (Int × Bool)}
    (hinit : h.IsHealthy = false)
    (hout : ∀ o ∈ HealthChecker.checkOutcomes h probes, o = false) :
    (HealthChecker.runChecks h probes).IsHealthy = false := by
  induction probes generalizing h with
  | nil => exact hinit
  | cons p rest ih =>
    obtain ⟨t, ok⟩ := p
    simp only [HealthChecker.runChecks]
    apply ih
    · have hhead : (h.Check t ok).isHealthy = false :=
        hout _ (by simp [HealthChecker.checkOutcomes])
      simpa [HealthChecker.Check, HealthChecker.IsHealthy] using hhead
    · intro o ho
      exact hout o (by simp [HealthChecker.checkOutcomes, ho])

/-! ## Claim theorems -/

/-- C2: `FallbackTokenStore.GetToken`: when the health check reports trusted,
the durable read is attempted first and on its success the cache entry is
overwritten with the durable value, which is returned; on durable failure or
when untrusted the cached value is returned if present; `notFound` is returned
iff the durable path did not succeed and the cache has no entry; a durable-tier
`unavailable` error is never surfaced to the caller. -/
theorem fallback_getToken_spec (s : FallbackTokenStore) (healthy avail : Bool)
    (userID : String) :
    (∀ t, healthy = true → avail = true →
        alookup s.redisStore.data userID = some t →
        s.GetToken healthy avail userID =
          ({ s with localCache := aupdate s.localCache userID t },
           Except.ok t)) ∧
    ((healthy = false ∨ avail = false ∨
        alookup s.redisStore.data userID = none) →
      (s.GetToken healthy avail userID).1 = s ∧
      (s.GetToken healthy avail userID).2 =
        (match alookup s.localCache userID with
         | some t => Except.ok t
         | none => Except.error StoreError.notFound)) ∧
    ((s.GetToken healthy avail userID).2 = Except.error StoreError.notFound ↔
      (¬∃ t, healthy = true ∧ avail = true ∧
          alookup s.redisStore.data userID = some t) ∧
        alookup s.localCache userID = none) ∧
    (s.GetToken healthy avail userID).2 ≠ Except.error StoreError.unavailable := by
  cases healthy <;> cases avail <;>
    rcases hr : alookup s.redisStore.data userID with _ | t <;>
    rcases hc : alookup s.localCache userID with _ | t' <;>
    simp [FallbackTokenStore.GetToken, RedisStore.GetToken, hr, hc]

/-- C2 witness: with a trusted health check and a reachable durable tier
holding a record, the durable value overwrites the cache and is returned. -/
theorem fallback_getToken_spec_witness :
    bothStore.GetToken true true "u1" =
      ({ bothStore with localCache := aupdate bothStore.localCache "u1" redisTok },
       Except.ok redisTok) :=
  (fallback_getToken_spec bothStore true true "u1").1 redisTok rfl rfl rfl

/-- C3: `FallbackTokenStore.SaveToken` writes the cache first, returns success
unconditionally, touches the durable tier only when the health check reports
trusted (persisting the record there when the write succeeds), and a subsequent
`GetToken` returns the cached record whenever the durable path is down. -/
theorem fallback_saveToken_spec (s : FallbackTokenStore) (healthy avail : Bool)
    (userID : String) (token : OAuthToken) :
    (s.SaveToken healthy avail userID token).2 = none ∧
    alookup (s.SaveToken healthy avail userID token).1.localCache userID =
      some token ∧
    (healthy = false →
      (s.SaveToken healthy avail userID token).1.redisStore = s.redisStore) ∧
    (healthy = true → avail = true →
      alookup (s.SaveToken healthy avail userID token).1.redisStore.data userID =
        some token) ∧
    (∀ h2 a2, (h2 = false ∨ a2 = false) →
      ((s.SaveToken healthy avail userID token).1.GetToken h2 a2 userID).2 =
        Except.ok token) := by
  refine ⟨saveToken_snd .., saveToken_cache .., ?_, ?_, ?_⟩
  · intro hh
    subst hh
    simp [FallbackTokenStore.SaveToken]
  · intro hh ha
    subst hh
    subst ha
    simp [FallbackTokenStore.SaveToken, RedisStore.SaveToken,
      alookup_aupdate_self]
  · intro h2 a2 hcase
    have hc := saveToken_cache s healthy avail userID token
    rcases hcase with hh | ha
    · subst hh
      simp [FallbackTokenStore.GetToken, hc]
    · subst ha
      cases h2 <;>
        simp [FallbackTokenStore.GetToken, RedisStore.GetToken, hc]

/-- C3 witness: with the durable tier down, a save still succeeds and a
subsequent get returns the record from the cache. -/
theorem fallback_saveToken_spec_witness :
    ((emptyStore.SaveToken false false "u1" tokA).1.GetToken false false
      "u1").2 = Except.ok tokA :=
  (fallback_saveToken_spec emptyStore false false "u1" tokA).2.2.2.2 false false
    (Or.inl rfl)

/-- C9: one pass of the replication routine does nothing when the health check
reports untrusted; when trusted it snapshots the whole cache and attempts a
durable save for every snapshotted entry, and a failure on one entry does not
prevent another entry (whose own write succeeds) from reaching the durable
tier. -/
theorem fallback_replication_spec (s : FallbackTokenStore)
    (avail : String → Bool) :
    s.replicationTick false avail = (s, []) ∧
    (s.replicationTick true avail).2 = s.localCache ∧
    (∀ userID token, (s.localCache.map Prod.fst).Nodup →
      (userID, token) ∈ s.localCache → avail userID = true →
      alookup (s.replicationTick true avail).1.redisStore.data userID =
        some token) := by
  refine ⟨by simp [FallbackTokenStore.replicationTick],
          by simp [FallbackTokenStore.replicationTick], ?_⟩
  intro userID token hnd hmem hav
  simp only [FallbackTokenStore.replicationTick, if_pos rfl]
  exact replicateAll_alookup_mem avail hnd hmem hav

/-- C9 witness: with the durable write failing for `"u1"` but succeeding for
`"u2"`, the pass still persists `"u2"`'s record durably. -/
theorem fallback_replication_spec_witness :
    alookup (twoStore.replicationTick true availOnlyU2).1.redisStore.data "u2" =
      some tokB :=
  (fallback_replication_spec twoStore availOnlyU2).2.2 "u2" tokB (by decide)
    (by decide) (by decide)

/-- C10: the trust flag is initialized pessimistically to false, so immediately
after construction, and after any sequence of checks none of which computed a
healthy result, `IsHealthy` returns false. -/
theorem healthChecker_pessimistic_init :
    NewHealthChecker.IsHealthy = false ∧
    ∀ probes : List (Int × Bool),
      (∀ o ∈ HealthChecker.checkOutcomes NewHealthChecker probes, o = false) →
      (HealthChecker.runChecks NewHealthChecker probes).IsHealthy = false :=
  ⟨rfl, fun _ hout => runChecks_no_success rfl hout⟩

/-- C10 witness: after one failed probe the monitor still reports unhealthy. -/
theorem healthChecker_pessimistic_init_witness :
    (HealthChecker.runChecks NewHealthChecker [(0, false)]).IsHealthy = false :=
  healthChecker_pessimistic_init.2 [(0, false)] (by decide)

/-- C1 (counterexample): `GetValidToken` can return a record whose `expiresAt`
is less than 5 minutes from now — with the stored record inside the margin and
the upstream refresh granting only 60 s, the refreshed record is returned with
`expiresAt - now = 60 < 300`. -/
theorem getValidToken_margin_counterexample :
    (Service.GetValidToken nearStore false false false false false false 0 "u1"
        (Except.ok upTokShort)).2 = Except.ok shortRefreshed ∧
    shortRefreshed.expiresAt - 0 < 5 * 60 :=
  ⟨rfl, by decide⟩

/-- C1 (amended): `GetValidToken` loads the record; when it is within the
5-minute margin the refresh is performed (the result is exactly the refresh's
result), otherwise the loaded record — then at least 5 minutes from expiry —
is returned; and any returned record is at least 5 minutes from expiry
provided the upstream-granted `expiresIn` is at least 5 minutes. -/
theorem getValidToken_refresh_margin (s : FallbackTokenStore)
    (hG aG hG2 aG2 hS aS : Bool) (now : Int) (userID : String)
    (refreshResp : Except UpstreamError OAuthToken) (old : OAuthToken)
    (hget : (s.GetToken hG aG userID).2 = Except.ok old) :
    (old.expiresAt - now < 5 * 60 →
      Service.GetValidToken s hG aG hG2 aG2 hS aS now userID refreshResp =
        Service.RefreshToken (s.GetToken hG aG userID).1 hG2 aG2 hS aS now
          userID refreshResp) ∧
    (5 * 60 ≤ old.expiresAt - now →
      Service.GetValidToken s hG aG hG2 aG2 hS aS now userID refreshResp =
        ((s.GetToken hG aG userID).1, Except.ok old)) ∧
    (∀ token, (Service.GetValidToken s hG aG hG2 aG2 hS aS now userID
        refreshResp).2 = Except.ok token →
      (∀ u, refreshResp = Except.ok u → 5 * 60 ≤ u.expiresIn) →
      5 * 60 ≤ token.expiresAt - now) := by
  refine ⟨?_, ?_, ?_⟩
  · intro hlt
    simp only [Service.GetValidToken, hget]
    rw [if_pos hlt]
  · intro hge
    simp only [Service.GetValidToken, hget]
    rw [if_neg (not_lt.mpr hge)]
  · intro token htok hgrant
    by_cases hlt : old.expiresAt - now < 5 * 60
    · simp only [Service.GetValidToken, hget, if_pos hlt] at htok
      obtain ⟨u, hresp, hexp⟩ :=
        refreshToken_ok_expiry _ hG2 aG2 hS aS now userID refreshResp token htok
      have := hgrant u hresp
      omega
    · simp only [Service.GetValidToken, hget, if_neg hlt] at htok
      simp only [Except.ok.injEq] at htok
      subst htok
      omega

/-- C1 witness: a record inside the margin triggers the refresh path. -/
theorem getValidToken_refresh_margin_witness :
    Service.GetValidToken nearStore false false false false false false 0 "u1"
        (Except.ok upTok) =
      Service.RefreshToken (nearStore.GetToken false false "u1").1 false false
        false false 0 "u1" (Except.ok upTok) :=
  (getValidToken_refresh_margin nearStore false false false false false false 0
    "u1" (Except.ok upTok) nearTok rfl).1 (by decide)

/-- C4: `Service.Disconnect` on a user with a stored record: a failure of
either revocation call is returned as that upstream error with the record left
in place (still retrievable afterward), and the record is deleted from the
store only when both revocations succeed. -/
theorem disconnect_revocation_spec (s : FallbackTokenStore) (hG aG hD aD : Bool)
    (userID : String) (old : OAuthToken)
    (hget : (s.GetToken hG aG userID).2 = Except.ok old) :
    (∀ e revR, Service.Disconnect s hG aG (some e) revR hD aD userID =
        ((s.GetToken hG aG userID).1, some (ServiceError.upstream e)) ∧
      (((s.GetToken hG aG userID).1).GetToken false false userID).2 =
        Except.ok old) ∧
    (∀ e, Service.Disconnect s hG aG none (some e) hD aD userID =
        ((s.GetToken hG aG userID).1, some (ServiceError.upstream e)) ∧
      (((s.GetToken hG aG userID).1).GetToken false false userID).2 =
        Except.ok old) ∧
    ((Service.Disconnect s hG aG none none hD aD userID).2 = none ∧
      alookup (Service.Disconnect s hG aG none none hD aD userID).1.localCache
        userID = none) := by
  have hcache := getToken_ok_cache s hG aG userID old hget
  have hretr := getToken_untrusted ((s.GetToken hG aG userID).1) false userID
    old hcache
  refine ⟨fun e revR => ⟨?_, hretr⟩, fun e => ⟨?_, hretr⟩, ?_, ?_⟩
  · simp [Service.Disconnect, hget]
  · simp [Service.Disconnect, hget]
  · simp [Service.Disconnect, hget, deleteToken_snd]
  · simp [Service.Disconnect, hget, deleteToken_cache]

/-- C4 witness: with the access-token revocation failing, disconnect returns
that error and the record is still retrievable. -/
theorem disconnect_revocation_spec_witness :
    Service.Disconnect cacheStore false false (some errA) none false false
        "u1" =
      ((cacheStore.GetToken false false "u1").1,
       some (ServiceError.upstream errA)) ∧
    (((cacheStore.GetToken false false "u1").1).GetToken false false "u1").2 =
      Except.ok tokA :=
  (disconnect_revocation_spec cacheStore false false false false "u1" tokA
    rfl).1 errA none

/-- C5 (counterexample): `HandleCallback` persists the exchanged record before
the callback supplies the tenant id, so a record with an empty `tenantId` is
persisted through the store (visible in the cache the save wrote). -/
theorem handleCallback_unbound_persisted_counterexample :
    alookup (Service.HandleCallback emptyStore false false 0 "u1"
        (Except.ok exchTok)).1.localCache "u1" = some exchSaved ∧
    exchSaved.realmID = "" :=
  ⟨rfl, rfl⟩

/-- C5 (amended): the exchanged record is persisted with whatever tenant id the
token response carried (typically empty), so an unbound record is persisted
transiently; once the callback supplies a non-empty `realmId`, the handler
re-persists the record bound to it, after which the persisted record's
`tenantId` is that non-empty value. -/
theorem callback_realm_binding_spec (s : FallbackTokenStore)
    (hS aS hS2 aS2 : Bool) (now : Int) (userID realmID : String)
    (token : OAuthToken) (hrealm : realmID ≠ "") :
    ∃ tok1 : OAuthToken,
      (Service.HandleCallback s hS aS now userID (Except.ok token)).2 =
        Except.ok tok1 ∧
      (Handler.callbackRealmBinding
          (Service.HandleCallback s hS aS now userID (Except.ok token)).1
          hS2 aS2 realmID userID tok1).2.realmID = realmID ∧
      alookup (Handler.callbackRealmBinding
          (Service.HandleCallback s hS aS now userID (Except.ok token)).1
          hS2 aS2 realmID userID tok1).1.localCache userID =
        some (Handler.callbackRealmBinding
          (Service.HandleCallback s hS aS now userID (Except.ok token)).1
          hS2 aS2 realmID userID tok1).2 := by
  refine ⟨{ token with expiresAt := now + token.expiresIn }, ?_, ?_, ?_⟩ <;>
    simp [Service.HandleCallback, Handler.callbackRealmBinding, hrealm,
      saveToken_snd, saveToken_cache]

/-- C5 witness: the spec's section-8 scenario — callback realm id `"9991"`
ends up as the persisted record's tenant id. -/
theorem callback_realm_binding_spec_witness :
    ∃ tok1 : OAuthToken,
      (Service.HandleCallback emptyStore false false 0 "u1"
          (Except.ok exchTok)).2 = Except.ok tok1 ∧
      (Handler.callbackRealmBinding
          (Service.HandleCallback emptyStore false false 0 "u1"
            (Except.ok exchTok)).1 false false "9991" "u1" tok1).2.realmID =
        "9991" ∧
      alookup (Handler.callbackRealmBinding
          (Service.HandleCallback emptyStore false false 0 "u1"
            (Except.ok exchTok)).1 false false "9991" "u1" tok1).1.localCache
          "u1" =
        some (Handler.callbackRealmBinding
          (Service.HandleCallback emptyStore false false 0 "u1"
            (Except.ok exchTok)).1 false false "9991" "u1" tok1).2 :=
  callback_realm_binding_spec emptyStore false false false false 0 "u1" "9991"
    exchTok (by decide)

/-- C6: the record `RefreshToken` persists and returns keeps the old record's
refresh token when the upstream response omits one, and carries the
upstream-supplied refresh token when one is provided. -/
theorem refreshToken_rotation_spec (s : FallbackTokenStore) (hG aG hS aS : Bool)
    (now : Int) (userID : String) (old u : OAuthToken)
    (hget : (s.GetToken hG aG userID).2 = Except.ok old) :
    ∃ token : OAuthToken,
      (Service.RefreshToken s hG aG hS aS now userID (Except.ok u)).2 =
        Except.ok token ∧
      token.refreshToken =
        (if u.refreshToken = "" then old.refreshToken else u.refreshToken) ∧
      alookup (Service.RefreshToken s hG aG hS aS now userID
          (Except.ok u)).1.localCache userID = some token := by
  refine ⟨refreshedRecord old u now, ?_, ?_, ?_⟩
  · rw [refreshToken_ok_spec s hG aG hS aS now userID old u hget]
  · by_cases hrt : u.refreshToken = "" <;> simp [refreshedRecord, hrt]
  · rw [refreshToken_ok_spec s hG aG hS aS now userID old u hget]
    exact saveToken_cache ..

/-- C6 witness: with the upstream omitting the refresh token, the refreshed
record keeps the old one. -/
theorem refreshToken_rotation_spec_witness :
    ∃ token : OAuthToken,
      (Service.RefreshToken cacheStore false false false false 0 "u1"
          (Except.ok upTokNoRotate)).2 = Except.ok token ∧
      token.refreshToken =
        (if upTokNoRotate.refreshToken = "" then tokA.refreshToken
         else upTokNoRotate.refreshToken) ∧
      alookup (Service.RefreshToken cacheStore false false false false 0 "u1"
          (Except.ok upTokNoRotate)).1.localCache "u1" = some token :=
  refreshToken_rotation_spec cacheStore false false false false 0 "u1" tokA
    upTokNoRotate rfl

/-- C7: the record `RefreshToken` persists and returns has the tenant id of the
record loaded before the refresh, whatever tenant id (if any) the upstream
response carried. -/
theorem refreshToken_preserves_tenant (s : FallbackTokenStore)
    (hG aG hS aS : Bool) (now : Int) (userID : String) (old u : OAuthToken)
    (hget : (s.GetToken hG aG userID).2 = Except.ok old) :
    ∃ token : OAuthToken,
      (Service.RefreshToken s hG aG hS aS now userID (Except.ok u)).2 =
        Except.ok token ∧
      token.realmID = old.realmID ∧
      alookup (Service.RefreshToken s hG aG hS aS now userID
          (Except.ok u)).1.localCache userID = some token := by
  refine ⟨refreshedRecord old u now, ?_, ?_, ?_⟩
  · rw [refreshToken_ok_spec s hG aG hS aS now userID old u hget]
  · by_cases hrt : u.refreshToken = "" <;> simp [refreshedRecord, hrt]
  · rw [refreshToken_ok_spec s hG aG hS aS now userID old u hget]
    exact saveToken_cache ..

/-- C7 witness: the upstream response's empty realm id does not disturb the
loaded record's tenant binding. -/
theorem refreshToken_preserves_tenant_witness :
    ∃ token : OAuthToken,
      (Service.RefreshToken cacheStore false false false false 0 "u1"
          (Except.ok upTok)).2 = Except.ok token ∧
      token.realmID = tokA.realmID ∧
      alookup (Service.RefreshToken cacheStore false false false false 0 "u1"
          (Except.ok upTok)).1.localCache "u1" = some token :=
  refreshToken_preserves_tenant cacheStore false false false false 0 "u1" tokA
    upTok rfl

/-- C8: from a closed breaker with no recorded failures, three consecutive
probe failures open the breaker (trust flag false, cool-down ending 30 s after
the third failure); while the cool-down has not elapsed every check is
suppressed (no real probe) and leaves the checker — hence the false trust
flag — unchanged even if the dependency has recovered; once the cool-down has
elapsed a single successful trial probe closes the breaker and restores
`IsHealthy = true`; and `IsHealthy` is a pure read of the cached boolean. -/
theorem healthChecker_breaker_protocol (h : HealthChecker) (t1 t2 t3 : Int)
    (hstate : h.breaker.state = BreakerState.closed)
    (hfail : h.breaker.consecutiveFailures = 0) :
    ((HealthChecker.runChecks h [(t1, false), (t2, false), (t3, false)]).IsHealthy
        = false ∧
      (HealthChecker.runChecks h
          [(t1, false), (t2, false), (t3, false)]).breaker.state =
        BreakerState.opened ∧
      (HealthChecker.runChecks h
          [(t1, false), (t2, false), (t3, false)]).breaker.openUntil =
        t3 + 30) ∧
    (∀ t ok, t < t3 + 30 →
      ((HealthChecker.runChecks h
          [(t1, false), (t2, false), (t3, false)]).Check t ok).probed = false ∧
      ((HealthChecker.runChecks h
          [(t1, false), (t2, false), (t3, false)]).Check t ok).checker =
        HealthChecker.runChecks h [(t1, false), (t2, false), (t3, false)]) ∧
    (∀ t, t3 + 30 ≤ t →
      ((HealthChecker.runChecks h
          [(t1, false), (t2, false), (t3, false)]).Check t true).probed =
        true ∧
      ((HealthChecker.runChecks h
          [(t1, false), (t2, false), (t3, false)]).Check t true).checker.IsHealthy =
        true ∧
      ((HealthChecker.runChecks h
          [(t1, false), (t2, false), (t3, false)]).Check t
          true).checker.breaker.state = BreakerState.closed) ∧
    (∀ hc : HealthChecker, hc.IsHealthy = hc.status) := by
  obtain ⟨st, br⟩ := h
  obtain ⟨bs, cf, ou⟩ := br
  simp only at hstate hfail
  subst hstate
  subst hfail
  have hrun : HealthChecker.runChecks ⟨st, ⟨BreakerState.closed, 0, ou⟩⟩
      [(t1, false), (t2, false), (t3, false)] =
      ⟨false, ⟨BreakerState.opened, 0, t3 + 30⟩⟩ := by
    simp [HealthChecker.runChecks, HealthChecker.Check, CircuitBreaker.attempt]
  rw [hrun]
  refine ⟨⟨rfl, rfl, rfl⟩, ?_, ?_, fun hc => rfl⟩
  · intro t ok ht
    have hno : ¬((t3 + 30 : Int) ≤ t) := not_le.mpr ht
    constructor <;>
      simp [HealthChecker.Check, CircuitBreaker.attempt, hno]
  · intro t ht
    refine ⟨?_, ?_, ?_⟩ <;>
      simp [HealthChecker.Check, CircuitBreaker.attempt, HealthChecker.IsHealthy,
        ht]

/-- C8 witness: three failed probes at time 0 open the breaker with a cool-down
until 30, a suppressed check inside the cool-down changes nothing, and a
successful probe at 30 restores health. -/
theorem healthChecker_breaker_protocol_witness :
    (HealthChecker.runChecks NewHealthChecker
        [(0, false), (0, false), (0, false)]).IsHealthy = false ∧
    ((HealthChecker.runChecks NewHealthChecker
        [(0, false), (0, false), (0, false)]).Check 10 true).probed = false ∧
    ((HealthChecker.runChecks NewHealthChecker
        [(0, false), (0, false), (0, false)]).Check 30 true).checker.IsHealthy =
      true := by
  have hmain := healthChecker_breaker_protocol NewHealthChecker 0 0 0 rfl rfl
  exact ⟨hmain.1.1, (hmain.2.1 10 true (by decide)).1,
    (hmain.2.2.1 30 (by decide)).2.1⟩

end QBServer
